import Mathlib

/-!
Verification of the build-task orchestration script `gulpfile.js` of the
`tsutil` repository.  The file shallowly embeds the logic of the script:
the single-slot memoizer `val`, the `env` and `globs` configuration
accessors, the stream-event handling of the `scripts` task, the coverage
callback of the `spec` task, the `clean` task acting on a filesystem model,
and the statically declared task graph together with a resolver and
sequential runner modelled from the specification (the task runner itself
is the external `gulp` library and is not part of the repository sources).
-/

/-- JavaScript values as far as the script distinguishes them: `undefined`
is the sentinel unset state of the memoizer, and the cached values that
occur in the script are booleans, numbers, strings and `null`. -/
inductive JSVal where
  | undef
  | vNull
  | vBool (b : Bool)
  | vNum (n : Int)
  | vStr (s : String)
deriving DecidableEq

/-- The closure state of an accessor produced by `val` in `gulpfile.js`:
the captured `value` slot (initially `undefined`), the ambient mutable
environment the constructor may act on, and an instrumentation counter of
how often the constructor has been invoked. -/
structure ValState (σ : Type) where
  cache : JSVal
  env : σ
  calls : Nat
deriving DecidableEq

/-- Initial closure state of `val(fn)`: the `value` variable is
`undefined` and the constructor has never run. -/
def valInit (σ : Type) (s : σ) : ValState σ :=
  ⟨JSVal.undef, s, 0⟩

/-- One call of the accessor returned by `val` (`gulpfile.js` lines
40 to 48): if the cached `value` is `undefined` the constructor `fn` runs
(possibly mutating the environment) and its result is stored; the stored
value is returned. -/
def valAccess {σ : Type} (fn : σ → JSVal × σ) (st : ValState σ) :
    JSVal × ValState σ :=
  if st.cache = JSVal.undef then
    let r := fn st.env
    (r.1, ⟨r.1, r.2, st.calls + 1⟩)
  else
    (st.cache, st)

/-- The closure state after `n` further accessor calls. -/
def valCalls {σ : Type} (fn : σ → JSVal × σ) : Nat → ValState σ → ValState σ
  | 0, st => st
  | n + 1, st => valCalls fn n (valAccess fn st).2

theorem valAccess_cached {σ : Type} (fn : σ → JSVal × σ) (st : ValState σ)
    (h : st.cache ≠ JSVal.undef) : valAccess fn st = (st.cache, st) := by
  simp [valAccess, h]

theorem valCalls_cached {σ : Type} (fn : σ → JSVal × σ) (st : ValState σ)
    (h : st.cache ≠ JSVal.undef) : ∀ n, valCalls fn n st = st := by
  intro n
  induction n with
  | zero => rfl
  | succ n ih =>
      simp [valCalls, valAccess_cached fn st h, ih]

/-- Claim C1: for every constructor `fn` whose result is not the sentinel
unset state `undefined`, the accessor `val(fn)` returns the constructor
result on the first call, and after any number of further calls the
constructor has still been invoked exactly once and every call returns
that same stored value (falsy results such as `false`, `0` or the empty
string included, since only `undefined` re-triggers the constructor). -/
theorem val_memoizes {σ : Type} (fn : σ → JSVal × σ) (s : σ)
    (h : (fn s).1 ≠ JSVal.undef) :
    (valAccess fn (valInit σ s)).1 = (fn s).1 ∧
    (valAccess fn (valInit σ s)).2.calls = 1 ∧
    ∀ n, valCalls fn n (valAccess fn (valInit σ s)).2 =
        (valAccess fn (valInit σ s)).2 ∧
      (valAccess fn (valCalls fn n (valAccess fn (valInit σ s)).2)).1 =
        (fn s).1 := by
  have hstep : valAccess fn (valInit σ s) =
      ((fn s).1, ⟨(fn s).1, (fn s).2, 1⟩) := by
    simp [valAccess, valInit]
  refine ⟨by rw [hstep], by rw [hstep], ?_⟩
  intro n
  have hcache : (valAccess fn (valInit σ s)).2.cache ≠ JSVal.undef := by
    rw [hstep]; exact h
  refine ⟨valCalls_cached fn _ hcache n, ?_⟩
  rw [valCalls_cached fn _ hcache n, valAccess_cached fn _ hcache, hstep]

/-- Witness for C1: a constructor returning the falsy value `false` with a
side effect on a counter environment is cached after one invocation. -/
theorem val_memoizes_witness :
    ((fun (c : Nat) => (JSVal.vBool false, c + 1)) 0).1 ≠ JSVal.undef ∧
    (valAccess (fun (c : Nat) => (JSVal.vBool false, c + 1))
        (valInit Nat 0)).2.calls = 1 :=
  ⟨by decide,
    (val_memoizes (fun (c : Nat) => (JSVal.vBool false, c + 1)) 0
      (by decide)).2.1⟩

/-- The prerequisite lists statically declared with `gulp.task` in
`gulpfile.js`: `doc` needs `pages`, `lint` needs `jshint` and `tslint`,
`test` needs `coverage` and `lint`, `bundle` needs `copy`, `copy` needs
`scripts`, `coverage` needs `spec`, `pages` needs `typedoc`, `scripts`
needs `clean` and `tslint`, `spec` needs `scripts`, `typedoc` needs
`clean`; `clean`, `format`, `jshint` and `tslint` have none. -/
def gulpDeps : String → List String
  | "doc" => ["pages"]
  | "lint" => ["jshint", "tslint"]
  | "test" => ["coverage", "lint"]
  | "bundle" => ["copy"]
  | "copy" => ["scripts"]
  | "coverage" => ["spec"]
  | "pages" => ["typedoc"]
  | "scripts" => ["clean", "tslint"]
  | "spec" => ["scripts"]
  | "typedoc" => ["clean"]
  | _ => []

/-- Every task name declared in `gulpfile.js`. -/
def allTasks : List String :=
  ["doc", "lint", "test", "bundle", "clean", "copy", "coverage", "format",
   "jshint", "pages", "scripts", "spec", "tslint", "typedoc"]

/-- Modelled from the spec: the task runner is the external `gulp`
library, absent from the repository sources; the specification says it
computes the transitive closure of prerequisites in declaration order,
visiting each task exactly once, prerequisites before dependents, with
the requested task last.  Depth-first visit with an accumulator of
already-visited tasks; the fuel bounds recursion depth and is ample for
the fourteen declared tasks. -/
def resolveVisit (deps : String → List String) :
    Nat → List String → String → List String
  | 0, visited, _ => visited
  | fuel + 1, visited, name =>
    if visited.contains name then visited
    else ((deps name).foldl (resolveVisit deps fuel) visited) ++ [name]

/-- Modelled from the spec: the sequence of tasks executed when `name` is
requested, ending with `name` itself.  This is the list the source reads
back as `gulp.seq`. -/
def resolveTask (name : String) : List String :=
  resolveVisit gulpDeps 32 [] name

/-- Boolean duplicate-freeness of a task sequence. -/
def nodupB : List String → Bool
  | [] => true
  | x :: xs => !(xs.contains x) && nodupB xs

/-- Topological-order check for a resolved sequence: no task appears
twice, the requested task is last, and every declared prerequisite of a
task in the sequence appears in the sequence strictly before that task. -/
def topoOk (name : String) (seq : List String) : Bool :=
  nodupB seq && (seq.getLast? == some name) &&
    seq.all (fun t => (gulpDeps t).all (fun d => seq.indexOf d < seq.indexOf t))

/-- Bounded reachability in the declared task graph: `t` is `n` itself or
a transitive prerequisite of `n`. -/
def reachB (deps : String → List String) : Nat → String → String → Bool
  | 0, _, _ => false
  | fuel + 1, n, t => n == t || (deps n).any (fun d => reachB deps fuel d t)

/-- Check that a resolved sequence contains only the requested task and
its transitive prerequisites. -/
def minimalOk (name : String) (seq : List String) : Bool :=
  seq.all (fun t => reachB gulpDeps 32 name t)

/-- Cycle detection along prerequisite chains: true when a task reappears
on the current chain or the fuel (larger than the number of declared
tasks) runs out. -/
def hasCycleB (deps : String → List String) : Nat → List String → String → Bool
  | 0, _, _ => true
  | fuel + 1, stack, n =>
    stack.contains n || (deps n).any (hasCycleB deps fuel (n :: stack))

/-- Claim C5: for every declared task name, the resolved sequence lists
every transitive prerequisite exactly once and nothing else, each
prerequisite strictly before any task depending on it, with the requested
task last; on the diamond reaching `tslint` from `test` both via `lint`
and via `coverage`, `spec`, `scripts`, the first visit wins and `tslint`
occurs exactly once. -/
theorem run_topological_order :
    ∀ name ∈ allTasks,
      topoOk name (resolveTask name) = true ∧
      minimalOk name (resolveTask name) = true ∧
      (resolveTask "test").count "tslint" = 1 ∧
      (resolveTask "test").count "clean" = 1 := by
  decide

/-- Witness for C5: the theorem applied to the concrete task `test`. -/
theorem run_topological_order_witness :
    "test" ∈ allTasks ∧ topoOk "test" (resolveTask "test") = true :=
  ⟨by decide, (run_topological_order "test" (by decide)).1⟩

/-- Claim C10: the statically declared task graph is acyclic; every
prerequisite chain from every declared task terminates without revisiting
a task, so the cyclic-dependency error case is unreachable here. -/
theorem task_graph_acyclic :
    ∀ name ∈ allTasks, hasCycleB gulpDeps 16 [] name = false := by
  decide

/-- Witness for C10: the theorem applied to the concrete task `test`. -/
theorem task_graph_acyclic_witness :
    "test" ∈ allTasks ∧ hasCycleB gulpDeps 16 [] "test" = false :=
  ⟨by decide, task_graph_acyclic "test" (by decide)⟩

/-- The `env.task` constructor (`gulpfile.js` lines 79 to 81): the last
element of the resolved task sequence `gulp.seq`, or `undefined` when the
sequence is empty, modelled as an optional string. -/
def env.task (seq : List String) : Option String :=
  seq.getLast?

/-- The `env.isTest` constructor (`gulpfile.js` lines 55 to 57): whether
the requested top-level task is `test`. -/
def env.isTest (seq : List String) : Bool :=
  env.task seq == some "test"

theorem valBool_calls_one (b : Bool) (k : Nat) :
    (valCalls (fun (u : Unit) => (JSVal.vBool b, u)) k
      (valAccess (fun (u : Unit) => (JSVal.vBool b, u))
        (valInit Unit ())).2).calls = 1 := by
  have hstep : (valAccess (fun (u : Unit) => (JSVal.vBool b, u))
      (valInit Unit ())).2 = ⟨JSVal.vBool b, (), 1⟩ := by
    simp [valAccess, valInit]
  rw [hstep, valCalls_cached _ _ (by simp)]

/-- Claim C2: for every declared task name, once the runner has recorded
the resolved sequence (which ends with the requested top-level task),
`env.task` returns exactly that requested name, and `env.isTest` is true
precisely when the requested task is `test`; wrapped in `val`, the
`isTest` answer is a boolean, never the sentinel `undefined`, so it is
computed once and fixed for all later reads. -/
theorem env_task_records_request :
    ∀ name ∈ allTasks,
      env.task (resolveTask name) = some name ∧
      env.isTest (resolveTask name) = (name == "test") ∧
      ∀ k, (valCalls
          (fun (u : Unit) => (JSVal.vBool (env.isTest (resolveTask name)), u)) k
          (valAccess
            (fun (u : Unit) => (JSVal.vBool (env.isTest (resolveTask name)), u))
            (valInit Unit ())).2).calls = 1 := by
  intro name hmem
  refine ⟨?_, ?_, fun k => valBool_calls_one _ k⟩
  · revert hmem
    have : ∀ n ∈ allTasks, env.task (resolveTask n) = some n := by decide
    exact this name
  · revert hmem
    have : ∀ n ∈ allTasks,
        env.isTest (resolveTask n) = (n == "test") := by decide
    exact this name

/-- Witness for C2: the theorem applied to the concrete task `test`. -/
theorem env_task_records_request_witness :
    "test" ∈ allTasks ∧ env.task (resolveTask "test") = some "test" :=
  ⟨by decide, (env_task_records_request "test" (by decide)).1⟩

/-- Events observed on the compiled-output stream of the `scripts` task:
a compiler error, an ordinary data chunk, or the end of the stream. -/
inductive StreamEvent where
  | errorEv
  | dataEv
  | endEv
deriving DecidableEq

/-- One stream event processed by the handlers installed in the `scripts`
task (`gulpfile.js` lines 223 to 240): the state is the `hasError` flag
and the exit code issued so far; an `error` event only sets `hasError`,
and the `end` handler calls `process.exit(8)` exactly when test mode was
requested and an error was flagged. -/
def scriptsStep (isTest : Bool) (st : Bool × Option Nat) (e : StreamEvent) :
    Bool × Option Nat :=
  match e with
  | StreamEvent.errorEv => (true, st.2)
  | StreamEvent.dataEv => st
  | StreamEvent.endEv =>
    (st.1, if isTest && st.1 then some 8 else st.2)

/-- The `scripts` task handlers run over a whole event sequence, starting
with no error flagged and no exit issued. -/
def scriptsRun (isTest : Bool) (events : List StreamEvent) :
    Bool × Option Nat :=
  events.foldl (scriptsStep isTest) (false, none)

theorem scriptsRun_append (isTest : Bool) (es fs : List StreamEvent) :
    scriptsRun isTest (es ++ fs) =
      fs.foldl (scriptsStep isTest) (scriptsRun isTest es) := by
  simp [scriptsRun, List.foldl_append]

theorem scriptsRun_no_end (isTest : Bool) (es : List StreamEvent)
    (h : StreamEvent.endEv ∉ es) :
    scriptsRun isTest es = (es.contains StreamEvent.errorEv, none) := by
  induction es with
  | nil => rfl
  | cons e es ih =>
      have he : e ≠ StreamEvent.endEv := fun hc => h (hc ▸ List.mem_cons_self e es)
      have hes : StreamEvent.endEv ∉ es := fun hc => h (List.mem_cons_of_mem e hc)
      cases e with
      | errorEv =>
          have : ∀ st : Bool × Option Nat,
              es.foldl (scriptsStep isTest) st = (st.1 || es.contains StreamEvent.errorEv, st.2) := by
            clear ih he h
            induction es with
            | nil => intro st; simp [List.contains]
            | cons f fs ihf =>
                intro st
                have hf : f ≠ StreamEvent.endEv := fun hc =>
                  hes (hc ▸ List.mem_cons_self f fs)
                have hfs : StreamEvent.endEv ∉ fs := fun hc =>
                  hes (List.mem_cons_of_mem f hc)
                cases f with
                | errorEv => simp [List.foldl_cons, scriptsStep, ihf hfs, List.contains_cons]
                | dataEv => simp [List.foldl_cons, scriptsStep, ihf hfs, List.contains_cons]
                | endEv => exact absurd rfl hf
          simp [scriptsRun, List.foldl_cons, scriptsStep, this, List.contains_cons]
      | dataEv =>
          simp only [scriptsRun, List.foldl_cons, scriptsStep] at *
          simp [ih hes, List.contains_cons]
      | endEv => exact absurd rfl he

/-- Claim C3: over any compiled-output event sequence consisting of error
and data events followed by the end of the stream, the `scripts` handlers
exit with code 8 exactly when an error occurred and test mode was
requested, the exit happens only once the stream has ended (no prefix of
the events before the end issues an exit, so output keeps being processed
after the failure is flagged), and without test mode a compilation error
issues no exit at all. -/
theorem scripts_exit_code_eight (isTest : Bool) (es : List StreamEvent)
    (h : StreamEvent.endEv ∉ es) :
    (scriptsRun isTest (es ++ [StreamEvent.endEv])).2 =
      (if isTest && es.contains StreamEvent.errorEv then some 8 else none) ∧
    ∀ p q : List StreamEvent, es = p ++ q → (scriptsRun isTest p).2 = none := by
  constructor
  · rw [scriptsRun_append, scriptsRun_no_end isTest es h]
    simp [scriptsStep]
  · intro p q hpq
    have hp : StreamEvent.endEv ∉ p := fun hc =>
      h (hpq ▸ List.mem_append_left q hc)
    rw [scriptsRun_no_end isTest p hp]

/-- Witness for C3: with test mode requested and an error followed by
further output before the end, the exit code is 8 and no exit happens
before the end of the stream. -/
theorem scripts_exit_code_eight_witness :
    StreamEvent.endEv ∉ [StreamEvent.errorEv, StreamEvent.dataEv] ∧
    (scriptsRun true
        ([StreamEvent.errorEv, StreamEvent.dataEv] ++ [StreamEvent.endEv])).2 =
      (if true && [StreamEvent.errorEv, StreamEvent.dataEv].contains
          StreamEvent.errorEv then some 8 else none) :=
  ⟨by decide,
    (scripts_exit_code_eight true [StreamEvent.errorEv, StreamEvent.dataEv]
      (by decide)).1⟩

/-- The end-of-tests callback of the `spec` task (`gulpfile.js` lines
261 to 272): from the coverage summary (metric keys paired with their
percentage) it collects the keys whose percentage differs from 100 and,
when any exist, calls back with a single error naming them all joined by
a comma and a space; otherwise it calls back with null, modelled as
`none`. -/
def specCallback (coverage : List (String × Int)) : Option String :=
  let incomplete := (coverage.filter (fun kv => kv.2 != 100)).map Prod.fst
  if incomplete.length > 0 then
    some ("Incomplete coverage for " ++ String.intercalate ", " incomplete)
  else
    none

/-- Claim C4: the `spec` callback reports failure if and only if some
coverage metric differs from 100 percent, and the failure is one single
error whose message names exactly the keys of every metric below the
threshold, joined by a comma and a space; with all metrics at 100 it
calls back with null. -/
theorem spec_coverage_callback (coverage : List (String × Int)) :
    (specCallback coverage = none ↔ ∀ kv ∈ coverage, kv.2 = 100) ∧
    ∀ s, specCallback coverage = some s →
      s = "Incomplete coverage for " ++ String.intercalate ", "
        ((coverage.filter (fun kv => kv.2 != 100)).map Prod.fst) := by
  constructor
  · constructor
    · intro hnone kv hmem
      by_contra hne
      have hkv : kv ∈ coverage.filter (fun kv => kv.2 != 100) :=
        List.mem_filter.mpr ⟨hmem, by simpa using hne⟩
      have hlen : 0 < ((coverage.filter (fun kv => kv.2 != 100)).map Prod.fst).length := by
        simp only [List.length_map]
        exact List.length_pos.mpr (List.ne_nil_of_mem hkv)
      simp only [specCallback, gt_iff_lt, hlen, if_pos] at hnone
      exact Option.noConfusion hnone
    · intro hall
      have hfil : coverage.filter (fun kv => kv.2 != 100) = [] := by
        rw [List.filter_eq_nil_iff]
        intro kv hmem
        simpa using hall kv hmem
      simp [specCallback, hfil]
  · intro s hs
    simp only [specCallback, gt_iff_lt] at hs
    by_cases hlen : 0 < ((coverage.filter (fun kv => kv.2 != 100)).map Prod.fst).length
    · rw [if_pos hlen] at hs
      injection hs with h
      exact h.symm
    · rw [if_neg hlen] at hs
      exact Option.noConfusion hs

/-- Witness for C4: with the lines metric at 90 percent and the branches
metric at 100, the callback reports one error naming exactly the lines
metric. -/
theorem spec_coverage_callback_witness :
    "Incomplete coverage for lines" = "Incomplete coverage for " ++
      String.intercalate ", "
        ((([("lines", (90 : Int)), ("branches", 100)]).filter
          (fun kv => kv.2 != 100)).map Prod.fst) :=
  (spec_coverage_callback [("lines", 90), ("branches", 100)]).2
    "Incomplete coverage for lines" (by rfl)

/-- Observable events of an executing run: a task action starting, an
internal asynchronous step of a running action, and an action finishing. -/
inductive TraceEv where
  | start (t : String)
  | step (t : String) (k : Nat)
  | fin (t : String)
deriving DecidableEq

/-- Modelled from the spec: the runner (the external `gulp` library) is
specified to execute task actions strictly sequentially, so the trace of
one action is its start, its internal steps in order, and its finish. -/
def actionBlock (action : String → List Nat) (t : String) : List TraceEv :=
  TraceEv.start t :: ((action t).map (TraceEv.step t) ++ [TraceEv.fin t])

/-- Modelled from the spec: the full trace of a run executes the actions
of the resolved sequence one after the other. -/
def runTrace (action : String → List Nat) (seq : List String) : List TraceEv :=
  seq.flatMap (actionBlock action)

/-- Non-interleaving checker over a trace: at most one task action is
open at any point, a start requires no open action, every internal step
and the finish must belong to the currently open action, and the trace
ends with no action open. -/
def seqCheck : Option String → List TraceEv → Bool
  | none, [] => true
  | some _, [] => false
  | none, TraceEv.start t :: rest => seqCheck (some t) rest
  | none, _ :: _ => false
  | some t, TraceEv.step u _ :: rest => t == u && seqCheck (some t) rest
  | some t, TraceEv.fin u :: rest => t == u && seqCheck none rest
  | some _, TraceEv.start _ :: _ => false

/-- Whole-trace sequentiality: starting from no open action, every event
is legal and every action that starts also finishes before another may
begin. -/
def sequentialTrace (tr : List TraceEv) : Bool :=
  seqCheck none tr

theorem seqCheck_block (action : String → List Nat) (t : String)
    (rest : List TraceEv) :
    seqCheck none (actionBlock action t ++ rest) = seqCheck none rest := by
  have hsteps : ∀ (l : List Nat),
      seqCheck (some t) ((l.map (TraceEv.step t)) ++
        ([TraceEv.fin t] ++ rest)) = seqCheck none rest := by
    intro l
    induction l with
    | nil => simp [seqCheck]
    | cons k l ih => simpa [seqCheck] using ih
  simpa [actionBlock, seqCheck] using hsteps (action t)

/-- Claim C6: for every possible assignment of internal asynchronous
steps to task actions and every resolved sequence, the run trace is
strictly sequential: each action runs from start through all its steps to
its finish before the next action starts, and no two actions are ever
open at once; in particular this holds for the run of `test`, whose
sequence contains the sibling prerequisites `jshint` and `tslint` of
`lint` as well as `coverage` and `lint`. -/
theorem run_actions_sequential (action : String → List Nat)
    (seq : List String) :
    sequentialTrace (runTrace action seq) = true ∧
    sequentialTrace (runTrace action (resolveTask "test")) = true := by
  have hall : ∀ s : List String, sequentialTrace (runTrace action s) = true := by
    intro s
    induction s with
    | nil => rfl
    | cons t ts ih =>
        have : runTrace action (t :: ts) =
            actionBlock action t ++ runTrace action ts := by
          simp [runTrace]
        rw [sequentialTrace, this, seqCheck_block]
        exact ih
  exact ⟨hall seq, hall (resolveTask "test")⟩

/-- The `path.join` calls of the glob constructors, which join plain
segments with the path separator. -/
def pathJoin (parts : List String) : String :=
  String.intercalate "/" parts

/-- The `globs.build` constructor: the build directory. -/
def globs.build : String := "_build"

/-- The `globs.doc` constructor: the documentation directory. -/
def globs.doc : String := "doc"

/-- The `globs.src` constructor: the source directory. -/
def globs.src : String := "src"

/-- The `globs.test` constructor: the test directory. -/
def globs.test : String := "test"

/-- The `globs.docs` constructor: everything under the doc directory. -/
def globs.docs : String :=
  pathJoin [globs.doc, "**", "*"]

/-- The `globs.ts` constructor: the TypeScript files of the source and
test directories. -/
def globs.ts : String :=
  pathJoin ["\x7b" ++ globs.src ++ "," ++ globs.test ++ "\x7d", "**", "*.ts"]

/-- The `globs.scripts` constructor: the compiled JavaScript under the
build directory. -/
def globs.scripts : String :=
  pathJoin [globs.build, globs.src, "**", "*.js"]

/-- The `globs.types` constructor: the compiled declaration files under
the build directory. -/
def globs.types : String :=
  pathJoin [globs.build, globs.src, "**", "*.d.ts"]

/-- The `globs.dist` constructor: the process working directory, taken
here as a parameter of the embedding. -/
def globs.dist (cwd : String) : String := cwd

/-- The sources the `copy` task reads (`gulpfile.js` lines 167 to 172):
the compiled scripts and the declaration files. -/
def copySources : List String := [globs.scripts, globs.types]

/-- The destination the `copy` task writes to: `globs.dist`. -/
def copyDest (cwd : String) : String := globs.dist cwd

/-- Claim C8: the memoized glob accessors resolve to exactly the strings
stated, `globs.dist` is the process working directory, and the `copy`
task reads the compiled scripts and declaration files and writes them to
that directory. -/
theorem globs_resolve :
    globs.ts = "\x7bsrc,test\x7d/**/*.ts" ∧
    globs.scripts = "_build/src/**/*.js" ∧
    globs.types = "_build/src/**/*.d.ts" ∧
    globs.docs = "doc/**/*" ∧
    (∀ cwd, globs.dist cwd = cwd ∧ copyDest cwd = cwd) ∧
    copySources = [globs.scripts, globs.types] :=
  ⟨rfl, rfl, rfl, rfl, fun _ => ⟨rfl, rfl⟩, rfl⟩

/-- Whether a path, given as its list of segments, lies under the
directory `d`. -/
def underDir (d : String) (p : List String) : Bool :=
  match p with
  | [] => false
  | x :: _ => x == d

/-- Whether a path is matched by the deletion list of the `clean` task
(`gulpfile.js` lines 157 to 162): under `globs.build` or `globs.doc`. -/
def cleanTarget (p : List String) : Bool :=
  underDir globs.build p || underDir globs.doc p

/-- The filesystem after the `clean` task, on a filesystem modelled as a
list of paths: exactly the paths under the build and doc directories are
removed. -/
def cleanFS (fs : List (List String)) : List (List String) :=
  fs.filter (fun p => !(cleanTarget p))

/-- The paths of a filesystem lying under the build directory. -/
def buildContents (fs : List (List String)) : List (List String) :=
  fs.filter (underDir globs.build)

/-- Claim C7: `clean` deletes exactly the paths under the build directory
`_build` and the doc directory `doc` and keeps every other path
untouched, running it twice changes nothing more (idempotence), and after
`clean` any compiled output the `scripts` task then writes under the
build directory is the entire content of the build directory, with no
residue from before. -/
theorem clean_exact_and_idempotent (fs outputs : List (List String))
    (houts : ∀ p ∈ outputs, underDir globs.build p = true) :
    (∀ p, p ∈ cleanFS fs ↔ p ∈ fs ∧ cleanTarget p = false) ∧
    cleanFS (cleanFS fs) = cleanFS fs ∧
    buildContents (cleanFS fs ++ outputs) = outputs := by
  refine ⟨?_, ?_, ?_⟩
  · intro p
    simp [cleanFS, List.mem_filter]
  · simp [cleanFS, List.filter_filter]
  · have hclean : buildContents (cleanFS fs) = [] := by
      rw [buildContents, List.filter_eq_nil_iff]
      intro p hp
      have hmem := List.mem_filter.mp hp
      have hnot : cleanTarget p = false := by
        simpa using hmem.2
      intro hb
      rw [cleanTarget, Bool.or_eq_false_iff] at hnot
      exact absurd hb (by simp [hnot.1])
    have houts : buildContents outputs = outputs := by
      rw [buildContents, List.filter_eq_self]
      exact houts
    rw [buildContents, List.filter_append, ← buildContents, ← buildContents,
      hclean, houts, List.nil_append]

/-- Witness for C7: a filesystem with stale build output, stale docs and
an unrelated source file; `clean` removes exactly the first two, and the
build directory afterwards holds exactly the freshly compiled output. -/
theorem clean_exact_and_idempotent_witness :
    (∀ p ∈ [["_build", "src", "a.js"]], underDir globs.build p = true) ∧
    buildContents
      (cleanFS [["_build", "old.js"], ["doc", "x.html"], ["src", "a.ts"]] ++
        [["_build", "src", "a.js"]]) = [["_build", "src", "a.js"]] :=
  ⟨by decide,
    (clean_exact_and_idempotent
      [["_build", "old.js"], ["doc", "x.html"], ["src", "a.ts"]]
      [["_build", "src", "a.js"]] (by decide)).2.2⟩

/-- The `env.isTravis` constructor (`gulpfile.js` lines 58 to 60): true
exactly when the `TRAVIS` environment variable is not `undefined`; the
variable is modelled as the JavaScript value read from the process
environment, a string when set. -/
def env.isTravis (travis : JSVal) : Bool :=
  travis != JSVal.undef

/-- The `env.pagesUrl` constructor (`gulpfile.js` lines 64 to 66): the
`PAGES_URL` environment variable, returned unchanged. -/
def env.pagesUrl (u : JSVal) : JSVal := u

/-- The `remoteUrl` option the `pages` task passes to the publishing step
(`gulpfile.js` lines 213 to 218): exactly `env.pagesUrl`. -/
def pagesRemoteUrl (u : JSVal) : JSVal :=
  env.pagesUrl u

/-- Claim C9: `env.isTravis` is true precisely when the `TRAVIS` variable
is defined, regardless of its value, so the strings `false` and the empty
string still count as running under continuous integration; and
`env.pagesUrl` returns the `PAGES_URL` value unchanged, which is exactly
the remote URL the `pages` task publishes to. -/
theorem travis_and_pages_url :
    (∀ v : JSVal, env.isTravis v = true ↔ v ≠ JSVal.undef) ∧
    env.isTravis (JSVal.vStr "false") = true ∧
    env.isTravis (JSVal.vStr "") = true ∧
    env.isTravis JSVal.undef = false ∧
    (∀ u : JSVal, pagesRemoteUrl u = u ∧ env.pagesUrl u = u) := by
  refine ⟨?_, by decide, by decide, by decide, fun u => ⟨rfl, rfl⟩⟩
  intro v
  simp [env.isTravis, bne_iff_ne]
